import Mathlib

/-!
Shallow embedding of the ActorTurnInPlace plugin core
(Source/ActorTurnInPlace/Private/TurnInPlace.cpp,
Source/ActorTurnInPlace/Private/TurnInPlaceStatics.cpp,
Source/ActorTurnInPlace/Public/TurnInPlaceTypes.h, and the variant in
src/unnamed/part_011), with floats modelled as rationals.  Engine angle
helpers (FRotator::NormalizeAxis, FRotator::ClampAxis, FMath::ClampAngle,
FRotator::CompressAxisToShort / DecompressAxisFromShort, FMath::Sign,
FMath::IsNearlyZero, FMath::RoundToInt, FQuat::Equals) are embedded with
their Unreal Engine semantics, since the plugin calls them directly.
-/

namespace TIP

/-- Engine constant KINDA_SMALL_NUMBER = 1.e-4f, used as the curve-weight
zero tolerance in UTurnInPlace::TurnInPlace. -/
def KINDA_SMALL_NUMBER : ℚ := 1 / 10000

/-- Engine constant SMALL_NUMBER = 1.e-8f, default tolerance of
FMath::IsNearlyEqual. -/
def SMALL_NUMBER : ℚ := 1 / 100000000

/-- TURN_ROTATOR_TOLERANCE = 1.e-3f (TurnInPlace.h), tolerance of the
quaternion comparison that gates replication sends. -/
def TURN_ROTATOR_TOLERANCE : ℚ := 1 / 1000

/-- FMath::IsNearlyZero: Abs(Value) <= ErrorTolerance. -/
def isNearlyZero (v tol : ℚ) : Bool := decide (|v| ≤ tol)

/-- FMath::IsNearlyEqual: Abs(A - B) <= ErrorTolerance. -/
def isNearlyEqual (a b tol : ℚ) : Bool := decide (|a - b| ≤ tol)

/-- FMath::Sign: (A > 0) ? 1 : ((A < 0) ? -1 : 0). -/
def mathSign (a : ℚ) : ℚ := if a > 0 then 1 else if a < 0 then -1 else 0

/-- Floor of a rational as integer division of numerator by denominator;
kernel-computable, and equal to the mathematical floor. -/
def ratFloor (q : ℚ) : ℤ := q.num / q.den

/-- Ceiling of a rational, kernel-computable. -/
def ratCeil (q : ℚ) : ℤ := -ratFloor (-q)

/-- FRotator::ClampAxis: the representative of the angle modulo 360 lying
in [0, 360) (Fmod followed by a conditional + 360 in the engine). -/
def clampAxis (a : ℚ) : ℚ := a - 360 * ratFloor (a / 360)

/-- FRotator::NormalizeAxis: the representative of the angle modulo 360
lying in (-180, 180]. -/
def normalizeAxis (a : ℚ) : ℚ :=
  let c := clampAxis a
  if c > 180 then c - 360 else c

/-- FMath::ClampAngle(AngleDegrees, MinAngleDegrees, MaxAngleDegrees),
exactly as in the engine: clamp to the nearest edge of the angular range. -/
def clampAngle (angleDegrees minAngleDegrees maxAngleDegrees : ℚ) : ℚ :=
  let maxDelta := clampAxis (maxAngleDegrees - minAngleDegrees) * (1 / 2)
  let rangeCenter := clampAxis (minAngleDegrees + maxDelta)
  let deltaFromCenter := normalizeAxis (angleDegrees - rangeCenter)
  if deltaFromCenter > maxDelta then normalizeAxis (rangeCenter + maxDelta)
  else if deltaFromCenter < -maxDelta then normalizeAxis (rangeCenter - maxDelta)
  else normalizeAxis angleDegrees

/-- FMath::RoundToInt: FloorToInt(F + 0.5), round half up. -/
def roundToInt (x : ℚ) : ℤ := ratFloor (x + 1 / 2)

/-- FRotator::CompressAxisToShort: RoundToInt(Angle * 65536 / 360) masked to
16 bits; the mask is the nonnegative residue modulo 65536. -/
def compressAxisToShort (angle : ℚ) : ℤ := roundToInt (angle * 65536 / 360) % 65536

/-- FRotator::DecompressAxisFromShort: (Angle * 360) / 65536. -/
def decompressAxisFromShort (n : ℤ) : ℚ := (n : ℚ) * 360 / 65536

/-- FTurnInPlaceSimulatedReplication::Decompress (TurnInPlaceTypes.h):
decompress the 16-bit value and normalize to (-180, 180]. -/
def decompressTurnOffset (n : ℤ) : ℚ := normalizeAxis (decompressAxisFromShort n)

/-- Quaternion record used by the replication change test.  Components are
rationals; only yaw-only quaternions (0, 0, sin(yaw/2), cos(yaw/2)) occur. -/
structure Quat where
  qx : ℚ
  qy : ℚ
  qz : ℚ
  qw : ℚ
deriving DecidableEq

/-- FQuat::Equals(Q, Tolerance): componentwise comparison against both Q
and -Q (a quaternion and its negation encode the same rotation). -/
def quatEquals (a b : Quat) (tol : ℚ) : Bool :=
  (decide (|a.qx - b.qx| ≤ tol) && decide (|a.qy - b.qy| ≤ tol) &&
   decide (|a.qz - b.qz| ≤ tol) && decide (|a.qw - b.qw| ≤ tol)) ||
  (decide (|a.qx + b.qx| ≤ tol) && decide (|a.qy + b.qy| ≤ tol) &&
   decide (|a.qz + b.qz| ≤ tol) && decide (|a.qw + b.qw| ≤ tol))

/-- FRotator(0, Yaw, 0).Quaternion(): a yaw-only rotation quaternion
(0, 0, sin(Yaw/2), cos(Yaw/2)).  The trigonometric evaluation is abstracted
as a parameter `trig` mapping the yaw angle to the (sine, cosine) pair of
half the angle, so the development stays computable; the properties proved
below hold for every such evaluation. -/
def yawToQuat (trig : ℚ → ℚ × ℚ) (yaw : ℚ) : Quat :=
  ⟨0, 0, (trig yaw).1, (trig yaw).2⟩

/-- UTurnInPlace::HasTurnOffsetChanged (src/unnamed/part_011, lines
494-499): build yaw-only quaternions from both angles and report whether
they differ beyond TURN_ROTATOR_TOLERANCE.  The same comparison gates
replication in UTurnInPlace::CompressSimulatedTurnOffset
(TurnInPlace.cpp, lines 103-116). -/
def hasTurnOffsetChanged (trig : ℚ → ℚ × ℚ) (currentValue lastValue : ℚ) : Bool :=
  !(quatEquals (yawToQuat trig currentValue) (yawToQuat trig lastValue)
      TURN_ROTATOR_TOLERANCE)

/-- ETurnInPlaceEnabledState (TurnInPlaceTypes.h). -/
inductive EnabledState where
  | Enabled
  | Locked
  | Paused
deriving DecidableEq

/-- ETurnInPlaceOverride (TurnInPlaceTypes.h). -/
inductive TurnOverride where
  | Default
  | ForceEnabled
  | ForceLocked
  | ForcePaused
deriving DecidableEq

/-- ETurnAnimSelectMode (TurnInPlaceTypes.h). -/
inductive SelectMode where
  | Greater
  | Nearest
deriving DecidableEq

/-- The two gameplay tags produced by UTurnInPlace::GetTurnModeTag
(TurnMode.Movement and TurnMode.Strafe). -/
inductive TurnModeTag where
  | Movement
  | Strafe
deriving DecidableEq

/-- FTurnInPlaceAngles (TurnInPlaceTypes.h). -/
structure TurnInPlaceAngles where
  minTurnAngle : ℚ
  maxTurnAngle : ℚ
deriving DecidableEq

/-- FTurnInPlaceParams (TurnInPlaceTypes.h).  The TMap of turn angles is
modelled as a lookup function returning an optional entry, mirroring
FTurnInPlaceParams::GetTurnAngles; montage-ignore data is not needed by the
reconciliation algorithm itself and is omitted. -/
structure TurnInPlaceParams where
  state : EnabledState
  selectMode : SelectMode
  selectOffset : ℚ
  turnAngles : TurnModeTag → Option TurnInPlaceAngles
  stepSizes : List ℤ
  movingInterpOutRate : ℚ

/-- FTurnInPlaceCurveValues (TurnInPlaceTypes.h). -/
structure CurveValues where
  remainingTurnYaw : ℚ
  turnYawWeight : ℚ
deriving DecidableEq

/-- The mutable turn accumulator of UTurnInPlace: TurnOffset, CurveValue,
InterpOutAlpha, bLastUpdateValidCurveValue (TurnInPlace.h members). -/
structure TurnData where
  turnOffset : ℚ
  curveValue : ℚ
  interpOutAlpha : ℚ
  bLastUpdateValidCurveValue : Bool
deriving DecidableEq

/-- UTurnInPlace::GetEnabledState (TurnInPlace.cpp, lines 306-325): Locked
when the component has no valid data, otherwise the params state possibly
overridden by OverrideTurnInPlace. -/
def getEnabledState (hasValidData : Bool) (params : TurnInPlaceParams)
    (overrideState : TurnOverride) : EnabledState :=
  if !hasValidData then EnabledState.Locked
  else
    match overrideState with
    | TurnOverride.Default => params.state
    | TurnOverride.ForceEnabled => EnabledState.Enabled
    | TurnOverride.ForceLocked => EnabledState.Locked
    | TurnOverride.ForcePaused => EnabledState.Paused

/-- The MaxTurnAngle actually used by the clamp in UTurnInPlace::TurnInPlace
(line 456): the configured entry for the turn mode tag, or 0 when the map
has no entry for that tag. -/
def maxTurnAngleOf (params : TurnInPlaceParams) (tag : TurnModeTag) : ℚ :=
  match params.turnAngles tag with
  | some angles => angles.maxTurnAngle
  | none => 0

/-- Lines 395-403 of UTurnInPlace::TurnInPlace: reset TurnOffset and
InterpOutAlpha, then (only when not Paused) set TurnOffset to the
normalized yaw delta between desired and current rotation. -/
def computeTurnOffsetBase (state : EnabledState) (currentYaw desiredYaw : ℚ)
    (prev : TurnData) : TurnData :=
  let d := { prev with turnOffset := 0, interpOutAlpha := 0 }
  if state = EnabledState.Paused then d
  else { d with turnOffset := normalizeAxis (desiredYaw - currentYaw) }

/-- Lines 405-444 of UTurnInPlace::TurnInPlace: the curve-driven decay
step.  Zero-weight curves invalidate the curve value; on re-entry after an
invalid frame both current and last curve values are forced to 0; the
candidate delta is applied only when no sign flip occurred and the
candidate stays within 180 degrees. -/
def applyCurveStep (cv : CurveValues) (d : TurnData) : TurnData :=
  let lastCurveValue := d.curveValue
  if isNearlyZero cv.turnYawWeight KINDA_SMALL_NUMBER then
    { d with curveValue := 0, bLastUpdateValidCurveValue := false }
  else
    let curveValue := cv.remainingTurnYaw * cv.turnYawWeight
    let curveValue2 := if !d.bLastUpdateValidCurveValue then 0 else curveValue
    let lastCurveValue2 := if !d.bLastUpdateValidCurveValue then 0 else lastCurveValue
    let d2 := { d with curveValue := curveValue2, bLastUpdateValidCurveValue := true }
    if mathSign curveValue2 = mathSign lastCurveValue2 then
      let newTurnOffset := d2.turnOffset + (curveValue2 - lastCurveValue2)
      if |newTurnOffset| ≤ 180 then
        if d2.bLastUpdateValidCurveValue then { d2 with turnOffset := newTurnOffset }
        else d2
      else d2
    else d2

/-- Lines 455-460 of UTurnInPlace::TurnInPlace: hard clamp of the turn
offset to the configured max angle, only when a positive max is configured
and the offset exceeds it. -/
def clampTurnOffsetStep (maxTurnAngle : ℚ) (d : TurnData) : TurnData :=
  if maxTurnAngle > 0 ∧ |d.turnOffset| > maxTurnAngle then
    { d with turnOffset := clampAngle d.turnOffset (-maxTurnAngle) maxTurnAngle }
  else d

/-- UTurnInPlace::TurnInPlace (TurnInPlace.cpp, lines 378-477).  Inputs are
the yaw of the current and desired rotations, the params and turn mode tag
the component would gather from its animation blueprint, the sampled curve
values, and the previous accumulator state.  Returns the new accumulator
and, unless Locked, the yaw applied to the actor by SetActorRotation
(currentYaw + NormalizeAxis(desiredYaw - (turnOffset + currentYaw)));
when Locked no rotation is applied and only TurnOffset and CurveValue are
zeroed. -/
def turnInPlace (hasValidData : Bool) (overrideState : TurnOverride)
    (params : TurnInPlaceParams) (tag : TurnModeTag)
    (currentYaw desiredYaw : ℚ) (cv : CurveValues) (prev : TurnData) :
    TurnData × Option ℚ :=
  let state := getEnabledState hasValidData params overrideState
  if state = EnabledState.Locked then
    ({ prev with turnOffset := 0, curveValue := 0 }, none)
  else
    let d1 := computeTurnOffsetBase state currentYaw desiredYaw prev
    let d2 := applyCurveStep cv d1
    let d3 := clampTurnOffsetStep (maxTurnAngleOf params tag) d2
    (d3, some (currentYaw + normalizeAxis (desiredYaw - (d3.turnOffset + currentYaw))))

/-- Loop body of the Nearest case of UTurnInPlace::DetermineStepSize
(lines 667-681): keep the index whose step angle is nearest; the first
iteration always captures (i == 0 || AngleDiff < Diff). -/
def nearestStepLoop (stepAngle : ℚ) : List ℤ → ℕ → ℚ → ℕ → ℕ
  | [], _, _, best => best
  | t :: rest, i, diff, best =>
    let angleDiff := |stepAngle - (t : ℚ)|
    if i = 0 ∨ angleDiff < diff then nearestStepLoop stepAngle rest (i + 1) angleDiff i
    else nearestStepLoop stepAngle rest (i + 1) diff best

/-- Loop body of the Greater case of UTurnInPlace::DetermineStepSize
(lines 683-694): keep the last index whose configured angle is not above
the floored step angle. -/
def greaterStepLoop (stepAngleFloor : ℤ) : List ℤ → ℕ → ℕ → ℕ
  | [], _, best => best
  | t :: rest, i, best =>
    greaterStepLoop stepAngleFloor rest (i + 1) (if stepAngleFloor ≥ t then i else best)

/-- UTurnInPlace::DetermineStepSize (TurnInPlace.cpp, lines 647-700):
returns the selected step-size index and the bTurnRight out-parameter.
An empty step-size list returns index 0 (reported via ensureMsgf in the
source). -/
def determineStepSize (params : TurnInPlaceParams) (angle : ℚ) : ℕ × Bool :=
  let stepAngle := |angle| + params.selectOffset
  let bTurnRight := decide (angle > 0)
  if params.stepSizes = [] then (0, bTurnRight)
  else
    match params.selectMode with
    | SelectMode.Nearest => (nearestStepLoop stepAngle params.stepSizes 0 0 0, bTurnRight)
    | SelectMode.Greater => (greaterStepLoop (ratFloor stepAngle) params.stepSizes 0 0, bTurnRight)

/-- An animation sequence as seen by the pseudo state machine: its play
length (UAnimSequence::GetPlayLength) and rate scale
(UAnimSequenceBase::RateScale). -/
structure AnimSeq where
  playLength : ℚ
  rateScale : ℚ
deriving DecidableEq

/-- FTurnInPlaceAnimSet (TurnInPlaceTypes.h), restricted to the fields the
pseudo state machine reads.  The animation arrays hold optional entries
because the engine arrays hold possibly-null pointers. -/
structure TurnAnimSet where
  playRateOnDirectionChange : ℚ
  playRateAtMaxAngle : ℚ
  bMaintainMaxAnglePlayRate : Bool
  leftTurns : List (Option AnimSeq)
  rightTurns : List (Option AnimSeq)
deriving DecidableEq

/-- FTurnInPlaceGraphNodeData: per-node data of the pseudo animation state
machine. -/
structure GraphNodeData where
  stepSize : ℕ
  bIsTurningRight : Bool
  bIsRecoveryTurningRight : Bool
  animStateTime : ℚ
  turnPlayRate : ℚ
  bHasReachedMaxTurnAngle : Bool
deriving DecidableEq

/-- FTurnInPlaceAnimGraphData, restricted to the fields read by the pseudo
state machine and the play-rate computation. -/
structure AnimGraphData where
  animSet : TurnAnimSet
  turnOffset : ℚ
  bIsTurning : Bool
  bTurnRight : Bool
  stepSize : ℕ
  bHasValidTurnAngles : Bool
  turnAngles : TurnInPlaceAngles
deriving DecidableEq

/-- FTurnInPlaceAnimGraphOutput, restricted to the transition flags the
pseudo state machine consumes. -/
structure AnimGraphOutput where
  bWantsToTurn : Bool
  bWantsTurnRecovery : Bool
deriving DecidableEq

/-- ETurnPseudoAnimState. -/
inductive PseudoAnimState where
  | Idle
  | TurnInPlace
  | Recovery
deriving DecidableEq

/-- The pseudo-anim-state members of UTurnInPlace: PseudoAnimState,
PseudoNodeData, PseudoAnim. -/
structure PseudoState where
  pseudoAnimState : PseudoAnimState
  pseudoNodeData : GraphNodeData
  pseudoAnim : Option AnimSeq
deriving DecidableEq

/-- UTurnInPlaceStatics::GetTurnInPlaceAnimation
(TurnInPlaceStatics.cpp, lines 103-109): pick the direction-appropriate
array and return its entry at the step-size index when the index is valid,
otherwise null. -/
def getTurnInPlaceAnimation (animSet : TurnAnimSet) (nodeData : GraphNodeData)
    (bRecovery : Bool) : Option AnimSeq :=
  let bTurnRight := if bRecovery then nodeData.bIsRecoveryTurningRight
                    else nodeData.bIsTurningRight
  let turnAnimations := if bTurnRight then animSet.rightTurns else animSet.leftTurns
  (turnAnimations.get? nodeData.stepSize).getD none

/-- UTurnInPlaceStatics::GetTurnInPlacePlayRate_ThreadSafe
(TurnInPlaceStatics.cpp, lines 42-67): returns the play rate (max of the
max-angle rate and the direction-change rate) and the bHasReachedMaxAngle
out-parameter. -/
def getTurnInPlacePlayRate (agd : AnimGraphData) (bForceTurnRateMaxAngle : Bool) :
    ℚ × Bool :=
  let bHasReachedMaxAngle := bForceTurnRateMaxAngle ||
    (agd.bHasValidTurnAngles &&
      isNearlyEqual |agd.turnOffset| agd.turnAngles.maxTurnAngle SMALL_NUMBER)
  let maxAngleRate := if bHasReachedMaxAngle then agd.animSet.playRateAtMaxAngle else 1
  let bWantsTurnRight := decide (agd.turnOffset > 0)
  let bDirectionChange := agd.bIsTurning && (bWantsTurnRight != agd.bTurnRight)
  let directionChangeRate :=
    if bDirectionChange then agd.animSet.playRateOnDirectionChange else 1
  (max maxAngleRate directionChangeRate, bHasReachedMaxAngle)

/-- UTurnInPlaceStatics::ThreadSafeUpdateTurnInPlaceNode
(TurnInPlaceStatics.cpp, lines 178-186). -/
def threadSafeUpdateTurnInPlaceNode (nodeData : GraphNodeData)
    (agd : AnimGraphData) (animSet : TurnAnimSet) : GraphNodeData :=
  let rb := getTurnInPlacePlayRate agd nodeData.bHasReachedMaxTurnAngle
  { nodeData with
    turnPlayRate := rb.1
    bHasReachedMaxTurnAngle := animSet.bMaintainMaxAnglePlayRate && rb.2 }

/-- UTurnInPlaceStatics::GetUpdatedTurnInPlaceAnimTime_ThreadSafe
(TurnInPlaceStatics.cpp, lines 69-79): advance the anim time by
DeltaTime * TurnPlayRate * RateScale, clamped to the play length; a null
animation leaves the time unchanged. -/
def getUpdatedTurnInPlaceAnimTime (turnAnimation : Option AnimSeq)
    (currentAnimTime deltaTime turnPlayRate : ℚ) : ℚ :=
  match turnAnimation with
  | none => currentAnimTime
  | some a => min (currentAnimTime + deltaTime * turnPlayRate * a.rateScale) a.playLength

/-- UTurnInPlace::UpdatePseudoAnimState (src/unnamed/part_011, lines
816-888).  The two early-outs (WantsPseudoAnimState and HasValidData) are
the boolean gate parameters; when either fails the state is unchanged. -/
def updatePseudoAnimState (wantsPseudo hasValidData : Bool) (deltaTime : ℚ)
    (turnAnimData : AnimGraphData) (turnOutput : AnimGraphOutput)
    (ps : PseudoState) : PseudoState :=
  if wantsPseudo && hasValidData then
    let animSet := turnAnimData.animSet
    match ps.pseudoAnimState with
    | PseudoAnimState.Idle =>
      if turnOutput.bWantsToTurn then
        let nd0 := { ps.pseudoNodeData with
                     stepSize := turnAnimData.stepSize
                     bIsTurningRight := turnAnimData.bTurnRight
                     animStateTime := 0 }
        let anim := getTurnInPlaceAnimation animSet nd0 false
        let nd1 := { nd0 with bHasReachedMaxTurnAngle := false }
        let nd2 := threadSafeUpdateTurnInPlaceNode nd1 turnAnimData animSet
        { pseudoAnimState := PseudoAnimState.TurnInPlace
          pseudoNodeData := nd2
          pseudoAnim := anim }
      else ps
    | PseudoAnimState.TurnInPlace =>
      if turnOutput.bWantsTurnRecovery then
        let nd0 := { ps.pseudoNodeData with
                     bIsRecoveryTurningRight := ps.pseudoNodeData.bIsTurningRight }
        let anim := getTurnInPlaceAnimation animSet nd0 true
        { pseudoAnimState := PseudoAnimState.Recovery
          pseudoNodeData := nd0
          pseudoAnim := anim }
      else
        let anim := getTurnInPlaceAnimation animSet ps.pseudoNodeData false
        let nd0 := { ps.pseudoNodeData with
                     animStateTime := getUpdatedTurnInPlaceAnimTime anim
                       ps.pseudoNodeData.animStateTime deltaTime
                       ps.pseudoNodeData.turnPlayRate }
        let nd1 := threadSafeUpdateTurnInPlaceNode nd0 turnAnimData animSet
        { pseudoAnimState := PseudoAnimState.TurnInPlace
          pseudoNodeData := nd1
          pseudoAnim := anim }
    | PseudoAnimState.Recovery =>
      let anim := getTurnInPlaceAnimation animSet ps.pseudoNodeData true
      let nd0 := { ps.pseudoNodeData with
                   animStateTime := getUpdatedTurnInPlaceAnimTime anim
                     ps.pseudoNodeData.animStateTime deltaTime 1 }
      match anim with
      | none =>
        { pseudoAnimState := PseudoAnimState.Idle
          pseudoNodeData := { nd0 with turnPlayRate := 1, bHasReachedMaxTurnAngle := false }
          pseudoAnim := anim }
      | some a =>
        if nd0.animStateTime ≥ a.playLength then
          { pseudoAnimState := PseudoAnimState.Idle
            pseudoNodeData := { nd0 with turnPlayRate := 1, bHasReachedMaxTurnAngle := false }
            pseudoAnim := anim }
        else
          { pseudoAnimState := PseudoAnimState.Recovery
            pseudoNodeData := nd0
            pseudoAnim := anim }
  else ps

/-- Concrete configuration for the end-to-end scenario of the spec: strafe
turn angles (60, 135), Greater select mode, step sizes [60, 90, 180]. -/
def params7 : TurnInPlaceParams :=
  { state := EnabledState.Enabled
    selectMode := SelectMode.Greater
    selectOffset := 0
    turnAngles := fun t =>
      match t with
      | TurnModeTag.Movement => some ⟨60, 0⟩
      | TurnModeTag.Strafe => some ⟨60, 135⟩
    stepSizes := [60, 90, 180]
    movingInterpOutRate := 1 }

/-- Concrete configuration whose params state is Paused and which has no
configured turn angles (so no max-angle clamp applies). -/
def pausedParams : TurnInPlaceParams :=
  { state := EnabledState.Paused
    selectMode := SelectMode.Greater
    selectOffset := 0
    turnAngles := fun _ => none
    stepSizes := [60, 90, 180]
    movingInterpOutRate := 1 }

/-- Concrete Enabled configuration with MaxTurnAngle = 0 (clamp disabled). -/
def noClampParams : TurnInPlaceParams :=
  { state := EnabledState.Enabled
    selectMode := SelectMode.Greater
    selectOffset := 0
    turnAngles := fun _ => some ⟨60, 0⟩
    stepSizes := [60, 90, 180]
    movingInterpOutRate := 1 }

/-- Concrete configuration with an empty step-size list. -/
def emptyStepParams : TurnInPlaceParams :=
  { state := EnabledState.Enabled
    selectMode := SelectMode.Nearest
    selectOffset := 0
    turnAngles := fun _ => some ⟨60, 0⟩
    stepSizes := []
    movingInterpOutRate := 1 }

/-- Concrete one-second animation at rate scale 1. -/
def anim1 : AnimSeq := ⟨1, 1⟩

/-- Concrete anim set holding one left and one right turn animation. -/
def animSet8 : TurnAnimSet :=
  { playRateOnDirectionChange := 17 / 10
    playRateAtMaxAngle := 13 / 10
    bMaintainMaxAnglePlayRate := true
    leftTurns := [some anim1]
    rightTurns := [some anim1] }

/-- Concrete anim graph data feeding the pseudo state machine. -/
def tad8 : AnimGraphData :=
  { animSet := animSet8
    turnOffset := 90
    bIsTurning := true
    bTurnRight := true
    stepSize := 0
    bHasValidTurnAngles := true
    turnAngles := ⟨60, 135⟩ }

/-- Concrete anim graph output asking for a turn and not for recovery. -/
def out8 : AnimGraphOutput := ⟨true, false⟩

/-- Concrete node data at the start of a recovery phase. -/
def nd8 : GraphNodeData :=
  { stepSize := 0
    bIsTurningRight := true
    bIsRecoveryTurningRight := true
    animStateTime := 0
    turnPlayRate := 1
    bHasReachedMaxTurnAngle := false }

/-- Concrete node data whose step-size index is out of range for animSet8. -/
def ndBig : GraphNodeData :=
  { stepSize := 5
    bIsTurningRight := true
    bIsRecoveryTurningRight := true
    animStateTime := 0
    turnPlayRate := 1
    bHasReachedMaxTurnAngle := false }

/-- Concrete pseudo state sitting in Recovery at time 0. -/
def psRec8 : PseudoState := ⟨PseudoAnimState.Recovery, nd8, some anim1⟩

/-- Concrete pseudo state sitting in Idle. -/
def psIdle8 : PseudoState := ⟨PseudoAnimState.Idle, nd8, none⟩

/-- Concrete pseudo state sitting in Recovery with no resolvable recovery
animation (step size out of range). -/
def psRecNone : PseudoState := ⟨PseudoAnimState.Recovery, ndBig, none⟩

theorem ratFloor_eq_floor (q : ℚ) : ratFloor q = ⌊q⌋ :=
  Rat.floor_def.symm

theorem ratCeil_eq_ceil (q : ℚ) : ratCeil q = ⌈q⌉ := by
  rw [ratCeil, ratFloor_eq_floor, Int.floor_neg, neg_neg]

theorem clampAxis_nonneg (a : ℚ) : 0 ≤ clampAxis a := by
  have h : ((⌊a / 360⌋ : ℤ) : ℚ) ≤ a / 360 := Int.floor_le _
  have h2 : 360 * ((⌊a / 360⌋ : ℤ) : ℚ) ≤ 360 * (a / 360) := by linarith
  have h3 : 360 * (a / 360) = a := by ring
  simp only [clampAxis, ratFloor_eq_floor]
  linarith

theorem clampAxis_lt (a : ℚ) : clampAxis a < 360 := by
  have h : a / 360 < ((⌊a / 360⌋ : ℤ) : ℚ) + 1 := Int.lt_floor_add_one _
  have h2 : 360 * (a / 360) < 360 * (((⌊a / 360⌋ : ℤ) : ℚ) + 1) := by linarith
  have h3 : 360 * (a / 360) = a := by ring
  simp only [clampAxis, ratFloor_eq_floor]
  linarith

theorem normalizeAxis_gt (a : ℚ) : -180 < normalizeAxis a := by
  have h1 := clampAxis_nonneg a
  have h2 := clampAxis_lt a
  simp only [normalizeAxis]
  split_ifs with h <;> linarith

theorem normalizeAxis_le (a : ℚ) : normalizeAxis a ≤ 180 := by
  have h1 := clampAxis_nonneg a
  have h2 := clampAxis_lt a
  simp only [normalizeAxis]
  split_ifs with h <;> linarith

theorem abs_normalizeAxis_le (a : ℚ) : |normalizeAxis a| ≤ 180 :=
  abs_le.mpr ⟨le_of_lt (normalizeAxis_gt a), normalizeAxis_le a⟩

theorem clampAxis_eq_self {a : ℚ} (h0 : 0 ≤ a) (h1 : a < 360) : clampAxis a = a := by
  have hf : ⌊a / 360⌋ = 0 := by
    rw [Int.floor_eq_zero_iff]
    constructor
    · positivity
    · rw [div_lt_one (by norm_num : (0:ℚ) < 360)] at *
      linarith
  simp [clampAxis, ratFloor_eq_floor, hf]

theorem normalizeAxis_eq_self {a : ℚ} (h0 : -180 < a) (h1 : a ≤ 180) :
    normalizeAxis a = a := by
  rcases le_or_lt 0 a with h | h
  · have hc : clampAxis a = a := clampAxis_eq_self h (by linarith)
    simp only [normalizeAxis, hc]
    rw [if_neg (by linarith : ¬ a > 180)]
  · have hf : ⌊a / 360⌋ = -1 := by
      rw [Int.floor_eq_iff]
      constructor
      · push_cast
        rw [le_div_iff₀ (by norm_num : (0:ℚ) < 360)]
        linarith
      · push_cast
        rw [div_lt_iff₀ (by norm_num : (0:ℚ) < 360)]
        linarith
    have hc : clampAxis a = a + 360 := by
      simp only [clampAxis, ratFloor_eq_floor, hf]
      push_cast
      ring
    simp only [normalizeAxis, hc]
    rw [if_pos (by linarith : a + 360 > 180)]
    ring

theorem clampAxis_add_int (a : ℚ) (k : ℤ) :
    clampAxis (a + 360 * k) = clampAxis a := by
  have hdiv : (a + 360 * k) / 360 = a / 360 + k := by
    field_simp
    ring
  simp only [clampAxis, ratFloor_eq_floor, hdiv, Int.floor_add_int]
  push_cast
  ring

theorem normalizeAxis_eq_of_congr {y z : ℚ} (k : ℤ) (h : y = z + 360 * k)
    (h0 : -180 < z) (h1 : z ≤ 180) : normalizeAxis y = z := by
  have step : normalizeAxis y = normalizeAxis z := by
    rw [h]
    simp only [normalizeAxis, clampAxis_add_int]
  rw [step]
  exact normalizeAxis_eq_self h0 h1

theorem normalizeAxis_sub_int (a : ℚ) : ∃ k : ℤ, normalizeAxis a = a + 360 * k := by
  simp only [normalizeAxis, clampAxis, ratFloor_eq_floor]
  split_ifs with h
  · exact ⟨-⌊a / 360⌋ - 1, by push_cast; ring⟩
  · exact ⟨-⌊a / 360⌋, by push_cast; ring⟩

theorem clampAngle_symm_eq {t m : ℚ} (hm0 : 0 < m) (hm1 : m < 180) :
    clampAngle t (-m) m =
      if normalizeAxis t > m then m
      else if normalizeAxis t < -m then -m
      else normalizeAxis t := by
  have hsum : clampAxis (m - -m) * (1 / 2) = m := by
    rw [show m - -m = m + m by ring,
        clampAxis_eq_self (by linarith) (by linarith)]
    ring
  have hzero : clampAxis (-m + m) = 0 := by
    rw [show -m + m = (0:ℚ) by ring]
    exact clampAxis_eq_self le_rfl (by norm_num)
  simp only [clampAngle, hsum, hzero, sub_zero, zero_add, zero_sub]
  rw [show normalizeAxis m = m from normalizeAxis_eq_self (by linarith) (by linarith),
      show normalizeAxis (-m) = -m from
        normalizeAxis_eq_self (by linarith) (by linarith)]

theorem abs_clampAngle_le {t m : ℚ} (hm0 : 0 < m) (hm1 : m < 180) :
    |clampAngle t (-m) m| ≤ m := by
  rw [clampAngle_symm_eq hm0 hm1]
  split_ifs with h1 h2
  · rw [abs_of_pos hm0]
  · rw [abs_neg, abs_of_pos hm0]
  · push_neg at h1 h2
    exact abs_le.mpr ⟨h2, h1⟩

theorem computeTurnOffsetBase_abs_le (state : EnabledState) (cur des : ℚ)
    (prev : TurnData) :
    |(computeTurnOffsetBase state cur des prev).turnOffset| ≤ 180 := by
  simp only [computeTurnOffsetBase]
  split_ifs <;> simp [abs_normalizeAxis_le]

theorem applyCurveStep_abs_le (cv : CurveValues) (d : TurnData)
    (h : |d.turnOffset| ≤ 180) : |(applyCurveStep cv d).turnOffset| ≤ 180 := by
  simp only [applyCurveStep]
  split_ifs with h1 h2 h3 h4 <;> simp_all

theorem clampTurnOffsetStep_abs_le {m : ℚ} (d : TurnData) (hm : 0 < m)
    (h : |d.turnOffset| ≤ 180) :
    |(clampTurnOffsetStep m d).turnOffset| ≤ m := by
  simp only [clampTurnOffsetStep]
  split_ifs with hc
  · have hlt : m < 180 := by
      rcases hc with ⟨_, habs⟩
      linarith
    simpa using abs_clampAngle_le hm hlt (t := d.turnOffset)
  · push_neg at hc
    exact hc hm

theorem clampTurnOffsetStep_nopos {m : ℚ} (d : TurnData) (hm : m ≤ 0) :
    clampTurnOffsetStep m d = d := by
  simp only [clampTurnOffsetStep]
  rw [if_neg]
  rintro ⟨h1, _⟩
  linarith

theorem applyCurveStep_invalid_turnOffset (cv : CurveValues) (d : TurnData)
    (hvalid : d.bLastUpdateValidCurveValue = false)
    (hb : |d.turnOffset| ≤ 180) :
    (applyCurveStep cv d).turnOffset = d.turnOffset := by
  simp only [applyCurveStep, hvalid]
  split_ifs <;> simp_all

theorem mathSign_eq_zero_iff {a : ℚ} : mathSign a = 0 ↔ a = 0 := by
  simp only [mathSign]
  split_ifs with h1 h2
  · constructor <;> intro h <;> [exact absurd h one_ne_zero; linarith]
  · constructor <;> intro h
    · norm_num at h
    · linarith
  · constructor <;> intro _ <;> [linarith; rfl]

/-- C1: for every reconciliation call with turn angles configured for the
active turn mode, a positive MaxTurnAngle, and an effective state that is
not Locked, the TurnOffset stored by UTurnInPlace::TurnInPlace satisfies
|TurnOffset| <= MaxTurnAngle, for every current/desired rotation input,
curve sample, and previous accumulator state. -/
theorem C1_clamp_invariant (hasValidData : Bool) (ov : TurnOverride)
    (params : TurnInPlaceParams) (tag : TurnModeTag)
    (currentYaw desiredYaw : ℚ) (cv : CurveValues) (prev : TurnData)
    (angles : TurnInPlaceAngles)
    (hangles : params.turnAngles tag = some angles)
    (hmax : 0 < angles.maxTurnAngle)
    (hstate : getEnabledState hasValidData params ov ≠ EnabledState.Locked) :
    |(turnInPlace hasValidData ov params tag currentYaw desiredYaw cv
        prev).1.turnOffset| ≤ angles.maxTurnAngle := by
  have hm : maxTurnAngleOf params tag = angles.maxTurnAngle := by
    simp [maxTurnAngleOf, hangles]
  simp only [turnInPlace]
  rw [if_neg hstate]
  simp only [hm]
  exact clampTurnOffsetStep_abs_le _ hmax
    (applyCurveStep_abs_le _ _ (computeTurnOffsetBase_abs_le _ _ _ _))

/-- Witness for C1 at the raw yaw delta of exactly 180 degrees with the
strafe max angle 135. -/
theorem C1_witness :
    |(turnInPlace true TurnOverride.Default params7 TurnModeTag.Strafe 0 180
        ⟨0, 0⟩ ⟨0, 0, 0, false⟩).1.turnOffset| ≤ (135 : ℚ) :=
  C1_clamp_invariant true TurnOverride.Default params7 TurnModeTag.Strafe 0 180
    ⟨0, 0⟩ ⟨0, 0, 0, false⟩ ⟨60, 135⟩ rfl (by norm_num) (by decide)

/-- C2 counterexample: with the effective state Paused (and not Locked), a
previous TurnOffset of 50, and a zero-weight curve, the call does NOT leave
TurnOffset at its previous value 50 (the code resets it to 0 at line 396 of
TurnInPlace.cpp before the Paused check suppresses the fresh delta). -/
theorem C2_counterexample :
    (turnInPlace true TurnOverride.Default pausedParams TurnModeTag.Movement
        0 70 ⟨0, 0⟩ ⟨50, 0, 0, false⟩).1.turnOffset ≠ 50 := by
  norm_num [turnInPlace, getEnabledState, pausedParams, computeTurnOffsetBase,
    applyCurveStep, clampTurnOffsetStep, maxTurnAngleOf, isNearlyZero,
    KINDA_SMALL_NUMBER, mathSign, clampAngle, normalizeAxis, clampAxis,
    ratFloor_eq_floor]
  split_ifs <;> norm_num at *

/-- C2 (amended): when the effective state is Paused (and not Locked),
UTurnInPlace::TurnInPlace resets TurnOffset to 0 rather than retaining its
previous value or taking the fresh yaw delta - the stored accumulator is
independent of the rotation inputs - and the curve-decay step still runs on
that zeroed value (the closed third conjunct shows a Paused call applying
the curve delta 30 - 40 = -10 on top of the zeroed offset; running it on
the retained offset 50 would instead give 40). -/
theorem C2_paused_amended (hv : Bool) (ov : TurnOverride)
    (params : TurnInPlaceParams) (tag : TurnModeTag)
    (cur des cur2 des2 : ℚ) (cv : CurveValues) (prev : TurnData)
    (hstate : getEnabledState hv params ov = EnabledState.Paused) :
    ((turnInPlace hv ov params tag cur des cv prev).1
        = (turnInPlace hv ov params tag cur2 des2 cv prev).1)
    ∧ (isNearlyZero cv.turnYawWeight KINDA_SMALL_NUMBER = true →
        (turnInPlace hv ov params tag cur des cv prev).1.turnOffset = 0)
    ∧ (turnInPlace true TurnOverride.Default pausedParams TurnModeTag.Movement
        0 70 ⟨30, 1⟩ ⟨50, 40, 0, true⟩).1.turnOffset = -10 := by
  have hnl : getEnabledState hv params ov ≠ EnabledState.Locked := by
    rw [hstate]
    decide
  have hbase : ∀ c d : ℚ,
      computeTurnOffsetBase (getEnabledState hv params ov) c d prev
        = { prev with turnOffset := 0, interpOutAlpha := 0 } := by
    intro c d
    simp [computeTurnOffsetBase, hstate]
  refine ⟨?_, ?_, ?_⟩
  · simp only [turnInPlace]
    rw [if_neg hnl, if_neg hnl, hbase, hbase]
  · intro hw
    have hcs : applyCurveStep cv { prev with turnOffset := 0, interpOutAlpha := 0 }
        = { prev with turnOffset := 0, interpOutAlpha := 0, curveValue := 0, bLastUpdateValidCurveValue := false } := by
      simp [applyCurveStep, hw]
    have hzero : ∀ d : TurnData, d.turnOffset = 0 →
        (clampTurnOffsetStep (maxTurnAngleOf params tag) d).turnOffset = 0 := by
      intro d hd
      simp only [clampTurnOffsetStep]
      rw [if_neg]
      · exact hd
      · rintro ⟨h1, h2⟩
        rw [hd, abs_zero] at h2
        linarith
    simp only [turnInPlace]
    rw [if_neg hnl, hbase]
    dsimp only
    rw [hcs]
    exact hzero _ rfl
  · norm_num [turnInPlace, getEnabledState, pausedParams, computeTurnOffsetBase,
      applyCurveStep, clampTurnOffsetStep, maxTurnAngleOf, isNearlyZero,
      KINDA_SMALL_NUMBER, mathSign, clampAngle, normalizeAxis, clampAxis,
      ratFloor_eq_floor]
    split_ifs <;> norm_num at *

/-- Witness for C2 (amended) at the concrete Paused configuration. -/
theorem C2_witness :
    (turnInPlace true TurnOverride.Default pausedParams TurnModeTag.Movement
        0 70 ⟨0, 0⟩ ⟨50, 0, 0, false⟩).1
      = (turnInPlace true TurnOverride.Default pausedParams TurnModeTag.Movement
          5 33 ⟨0, 0⟩ ⟨50, 0, 0, false⟩).1 :=
  (C2_paused_amended true TurnOverride.Default pausedParams TurnModeTag.Movement
    0 70 5 33 ⟨0, 0⟩ ⟨50, 0, 0, false⟩ (by decide)).1

/-- C3: when the effective enabled state is Locked,
UTurnInPlace::TurnInPlace zeroes TurnOffset and CurveValue and returns
without applying any rotation (the applied-rotation component is none, so
the actor rotation is unchanged), for every rotation input, curve sample,
and previous state. -/
theorem C3_locked_noop (hv : Bool) (ov : TurnOverride)
    (params : TurnInPlaceParams) (tag : TurnModeTag) (cur des : ℚ)
    (cv : CurveValues) (prev : TurnData)
    (hstate : getEnabledState hv params ov = EnabledState.Locked) :
    turnInPlace hv ov params tag cur des cv prev
      = ({ prev with turnOffset := 0, curveValue := 0 }, none) := by
  simp [turnInPlace, hstate]

/-- Witness for C3: a component without valid data is Locked and the call
is a no-op apart from zeroing TurnOffset and CurveValue. -/
theorem C3_witness :
    turnInPlace false TurnOverride.Default params7 TurnModeTag.Movement 1 2
        ⟨3, 4⟩ ⟨5, 6, 7, true⟩ = (⟨0, 0, 7, true⟩, none) :=
  C3_locked_noop false TurnOverride.Default params7 TurnModeTag.Movement 1 2
    ⟨3, 4⟩ ⟨5, 6, 7, true⟩ (by decide)

/-- C4: in the curve step of UTurnInPlace::TurnInPlace (lines 430-443), if
the freshly computed curve value and the curve value left by the previous
call (both under nonzero weight, with the previous call having had a valid
curve) disagree in sign, the candidate delta is not applied: TurnOffset
keeps the value it had before the curve step. -/
theorem C4_direction_flip_guard (cv : CurveValues) (d : TurnData)
    (hvalid : d.bLastUpdateValidCurveValue = true)
    (hw : isNearlyZero cv.turnYawWeight KINDA_SMALL_NUMBER = false)
    (hflip : mathSign (cv.remainingTurnYaw * cv.turnYawWeight)
        ≠ mathSign d.curveValue) :
    (applyCurveStep cv d).turnOffset = d.turnOffset := by
  simp only [applyCurveStep, hw, hvalid, Bool.not_true, Bool.false_eq_true,
    if_false, Bool.false_eq_true]
  rw [if_neg hflip]

/-- Witness for C4 at lastCurveValue = +5 and curveValue = -3. -/
theorem C4_witness :
    (applyCurveStep ⟨-3, 1⟩ ⟨7, 5, 0, true⟩).turnOffset = 7 :=
  C4_direction_flip_guard ⟨-3, 1⟩ ⟨7, 5, 0, true⟩ rfl
    (by norm_num [isNearlyZero, KINDA_SMALL_NUMBER])
    (by norm_num [mathSign])

/-- C5: after a call that observed a nearly-zero-weight curve (leaving
bLastUpdateValidCurveValue = false), the next Enabled call applies zero net
curve delta no matter what curve values it samples: with no max-angle clamp
configured the stored TurnOffset is exactly the fresh normalized yaw delta,
because LastCurveValue is forced to 0 before the comparison. -/
theorem C5_reentry_suppression (hv : Bool) (ov : TurnOverride)
    (params : TurnInPlaceParams) (tag : TurnModeTag) (cur des : ℚ)
    (prev : TurnData)
    (hstate : getEnabledState hv params ov = EnabledState.Enabled)
    (hvalid : prev.bLastUpdateValidCurveValue = false)
    (hnoclamp : maxTurnAngleOf params tag ≤ 0) :
    ∀ cv : CurveValues,
      (turnInPlace hv ov params tag cur des cv prev).1.turnOffset
        = normalizeAxis (des - cur) := by
  intro cv
  have hnl : getEnabledState hv params ov ≠ EnabledState.Locked := by
    rw [hstate]
    decide
  have hbase : computeTurnOffsetBase (getEnabledState hv params ov) cur des prev
      = { prev with turnOffset := normalizeAxis (des - cur), interpOutAlpha := 0 } := by
    simp [computeTurnOffsetBase, hstate]
  simp only [turnInPlace]
  rw [if_neg hnl]
  dsimp only
  rw [clampTurnOffsetStep_nopos _ hnoclamp, hbase,
    applyCurveStep_invalid_turnOffset cv
      { prev with turnOffset := normalizeAxis (des - cur), interpOutAlpha := 0 }
      hvalid (by simpa using abs_normalizeAxis_le (des - cur))]

/-- Witness for C5 with a huge curve product (100000 * 1) sampled right
after an invalid-curve frame: the offset is just the fresh delta 100. -/
theorem C5_witness :
    (turnInPlace true TurnOverride.Default noClampParams TurnModeTag.Movement
        0 100 ⟨100000, 1⟩ ⟨0, 0, 0, false⟩).1.turnOffset
      = normalizeAxis (100 - 0) :=
  C5_reentry_suppression true TurnOverride.Default noClampParams
    TurnModeTag.Movement 0 100 ⟨0, 0, 0, false⟩ (by decide) rfl
    (by norm_num [maxTurnAngleOf, noClampParams]) ⟨100000, 1⟩

/-- C6 counterexample: a curve value of exactly 0 under nonzero weight with
lastCurveValue = 5 is NOT treated as no-flip: the candidate delta
(0 - 5 = -5) is not applied and the offset stays at the fresh delta 10,
whereas the claim says the delta would still be applied (giving 5). -/
theorem C6_counterexample :
    (turnInPlace true TurnOverride.Default noClampParams TurnModeTag.Movement
        0 10 ⟨0, 1⟩ ⟨0, 5, 0, true⟩).1.turnOffset = 10
    ∧ (10 : ℚ) ≠ 10 + (0 - 5) := by
  constructor
  · norm_num [turnInPlace, getEnabledState, noClampParams, computeTurnOffsetBase,
      applyCurveStep, clampTurnOffsetStep, maxTurnAngleOf, isNearlyZero,
      KINDA_SMALL_NUMBER, mathSign, clampAngle, normalizeAxis, clampAxis,
      ratFloor_eq_floor]
    split_ifs <;> norm_num at *
  · norm_num

/-- C6 (amended): in the sign comparison of the curve step, a curve value
of exactly 0 (with nonzero weight and a valid last curve) leaves TurnOffset
unchanged whatever the previous curve value was: when the previous value is
also 0 no flip is detected but the applied delta is 0; when the previous
value is nonzero, FMath::Sign(0) = 0 differs from its sign, a direction
flip is detected, and the candidate delta is suppressed. -/
theorem C6_zero_sign_amended (cv : CurveValues) (d : TurnData)
    (hw : isNearlyZero cv.turnYawWeight KINDA_SMALL_NUMBER = false)
    (hvalid : d.bLastUpdateValidCurveValue = true)
    (hcv : cv.remainingTurnYaw * cv.turnYawWeight = 0) :
    (applyCurveStep cv d).turnOffset = d.turnOffset := by
  simp only [applyCurveStep, hw, hvalid, Bool.not_true, Bool.false_eq_true,
    if_false]
  by_cases hs : mathSign (cv.remainingTurnYaw * cv.turnYawWeight)
      = mathSign d.curveValue
  · rw [if_pos hs]
    have hlcv : d.curveValue = 0 := by
      rw [hcv] at hs
      have h0 : mathSign (0:ℚ) = 0 := by simp [mathSign]
      rw [h0] at hs
      exact mathSign_eq_zero_iff.mp hs.symm
    rw [hcv, hlcv]
    simp
  · rw [if_neg hs]

/-- Witness for C6 (amended) at curve product 0 * 1 with last value 5. -/
theorem C6_witness :
    (applyCurveStep ⟨0, 1⟩ ⟨44, 5, 0, true⟩).turnOffset = 44 :=
  C6_zero_sign_amended ⟨0, 1⟩ ⟨44, 5, 0, true⟩
    (by norm_num [isNearlyZero, KINDA_SMALL_NUMBER]) rfl (by norm_num)

/-- C7: the end-to-end scenario: current yaw 0, desired yaw 170, strafe
angles (min 60, max 135), step sizes [60, 90, 180], Greater mode, select
offset 0, no active curve.  The resulting TurnOffset is exactly 135, the
call applies actor yaw 35 (the actor visibly rotates by 170 - 135 = 35
degrees from yaw 0), and DetermineStepSize on the resulting offset returns
index 1 with bTurnRight = true. -/
theorem C7_end_to_end :
    turnInPlace true TurnOverride.Default params7 TurnModeTag.Strafe 0 170
        ⟨0, 0⟩ ⟨0, 0, 0, false⟩ = (⟨135, 0, 0, false⟩, some 35)
    ∧ determineStepSize params7
        (turnInPlace true TurnOverride.Default params7 TurnModeTag.Strafe 0 170
          ⟨0, 0⟩ ⟨0, 0, 0, false⟩).1.turnOffset = (1, true) := by
  have h1 : turnInPlace true TurnOverride.Default params7 TurnModeTag.Strafe 0 170
      ⟨0, 0⟩ ⟨0, 0, 0, false⟩ = (⟨135, 0, 0, false⟩, some 35) := by
    have e1 : getEnabledState true params7 TurnOverride.Default
        = EnabledState.Enabled := rfl
    simp only [turnInPlace, e1]
    rw [if_neg (by decide : ¬ (EnabledState.Enabled = EnabledState.Locked))]
    have e2 : computeTurnOffsetBase EnabledState.Enabled 0 170 ⟨0, 0, 0, false⟩
        = ⟨normalizeAxis (170 - 0), 0, 0, false⟩ := by
      simp only [computeTurnOffsetBase]
      rw [if_neg (by decide : ¬ (EnabledState.Enabled = EnabledState.Paused))]
    rw [e2]
    have e3 : normalizeAxis (170 - 0) = 170 := by
      simp only [normalizeAxis, clampAxis, ratFloor_eq_floor]
      norm_num
    rw [e3]
    have e4 : applyCurveStep ⟨0, 0⟩ ⟨170, 0, 0, false⟩ = ⟨170, 0, 0, false⟩ := by
      simp only [applyCurveStep]
      rw [if_pos]
      norm_num [isNearlyZero, KINDA_SMALL_NUMBER]
    rw [e4]
    have e5 : clampTurnOffsetStep (maxTurnAngleOf params7 TurnModeTag.Strafe)
        ⟨170, 0, 0, false⟩ = ⟨135, 0, 0, false⟩ := by
      simp only [clampTurnOffsetStep, maxTurnAngleOf, params7, clampAngle,
        normalizeAxis, clampAxis, ratFloor_eq_floor]
      norm_num
    rw [e5]
    have e6 : normalizeAxis (170 - ((135 : ℚ) + 0)) = 35 := by
      simp only [normalizeAxis, clampAxis, ratFloor_eq_floor]
      norm_num
    dsimp only
    rw [e6]
    norm_num
  refine ⟨h1, ?_⟩
  rw [h1]
  norm_num [determineStepSize, params7, nearestStepLoop, greaterStepLoop,
    ratFloor_eq_floor]
  decide

theorem nearestStepLoop_lt (sa : ℚ) :
    ∀ (l : List ℤ) (i : ℕ) (diff : ℚ) (best : ℕ), best < i + l.length →
      nearestStepLoop sa l i diff best < i + l.length := by
  intro l
  induction l with
  | nil => intro i diff best h; simpa using h
  | cons t rest ih =>
    intro i diff best h
    simp only [List.length_cons] at h ⊢
    simp only [nearestStepLoop]
    split_ifs with hc
    · have h2 := ih (i + 1) |sa - (t : ℚ)| i (by omega)
      omega
    · have h2 := ih (i + 1) diff best (by omega)
      omega

theorem greaterStepLoop_lt (f : ℤ) :
    ∀ (l : List ℤ) (i best : ℕ), best < i + l.length →
      greaterStepLoop f l i best < i + l.length := by
  intro l
  induction l with
  | nil => intro i best h; simpa using h
  | cons t rest ih =>
    intro i best h
    simp only [List.length_cons] at h ⊢
    simp only [greaterStepLoop]
    split_ifs with hc
    · have h2 := ih (i + 1) i (by omega)
      omega
    · have h2 := ih (i + 1) best (by omega)
      omega

/-- C10: UTurnInPlace::DetermineStepSize returns an index inside the
step-size list in both select modes for every angle and select offset, and
returns 0 for an empty list; and the animation lookup of
UTurnInPlaceStatics::GetTurnInPlaceAnimation returns null (none) whenever
the step-size index is not a valid index of the selected turn-animation
array, so the arrays are only indexed through validity-checked indices. -/
theorem C10_step_size_bounds :
    (∀ (params : TurnInPlaceParams) (angle : ℚ), params.stepSizes ≠ [] →
       (determineStepSize params angle).1 < params.stepSizes.length)
    ∧ (∀ (params : TurnInPlaceParams) (angle : ℚ), params.stepSizes = [] →
       (determineStepSize params angle).1 = 0)
    ∧ (∀ (animSet : TurnAnimSet) (nd : GraphNodeData) (bRecovery : Bool),
       (if (if bRecovery then nd.bIsRecoveryTurningRight else nd.bIsTurningRight)
        then animSet.rightTurns else animSet.leftTurns).length ≤ nd.stepSize →
       getTurnInPlaceAnimation animSet nd bRecovery = none) := by
  refine ⟨?_, ?_, ?_⟩
  · intro params angle hne
    have hlen : 0 < params.stepSizes.length := List.length_pos.mpr hne
    simp only [determineStepSize]
    rw [if_neg hne]
    cases params.selectMode with
    | Nearest =>
      have h := nearestStepLoop_lt (|angle| + params.selectOffset)
        params.stepSizes 0 0 0 (by omega)
      simpa using h
    | Greater =>
      have h := greaterStepLoop_lt (ratFloor (|angle| + params.selectOffset))
        params.stepSizes 0 0 (by omega)
      simpa using h
  · intro params angle he
    simp [determineStepSize, he]
  · intro animSet nd bRecovery h
    simp only [getTurnInPlaceAnimation]
    rw [List.get?_eq_none.mpr h]
    rfl

theorem getTurnInPlaceAnimation_time_irrel (animSet : TurnAnimSet)
    (nd : GraphNodeData) (t : ℚ) (bRecovery : Bool) :
    getTurnInPlaceAnimation animSet { nd with animStateTime := t } bRecovery
      = getTurnInPlaceAnimation animSet nd bRecovery := rfl

theorem recovery_step_aux (dt : ℚ) (tad : AnimGraphData) (out : AnimGraphOutput)
    (s : PseudoState) (a : AnimSeq)
    (hs : s.pseudoAnimState = PseudoAnimState.Recovery)
    (hanim : getTurnInPlaceAnimation tad.animSet s.pseudoNodeData true = some a)
    (hrate : a.rateScale = 1)
    (hlt : s.pseudoNodeData.animStateTime + dt < a.playLength) :
    (updatePseudoAnimState true true dt tad out s).pseudoAnimState
        = PseudoAnimState.Recovery ∧
    (updatePseudoAnimState true true dt tad out s).pseudoNodeData
        = { s.pseudoNodeData with
            animStateTime := s.pseudoNodeData.animStateTime + dt } := by
  have htime : getUpdatedTurnInPlaceAnimTime (some a) s.pseudoNodeData.animStateTime dt 1
      = s.pseudoNodeData.animStateTime + dt := by
    simp only [getUpdatedTurnInPlaceAnimTime, hrate, mul_one]
    exact min_eq_left (le_of_lt hlt)
  have hcond : ¬ (s.pseudoNodeData.animStateTime + dt ≥ a.playLength) := not_le.mpr hlt
  simp only [updatePseudoAnimState, Bool.and_self, if_true, hs, hanim, htime, hcond,
    if_false]
  exact ⟨by trivial, by trivial⟩

theorem recovery_final_aux (dt : ℚ) (tad : AnimGraphData) (out : AnimGraphOutput)
    (s : PseudoState) (a : AnimSeq)
    (hs : s.pseudoAnimState = PseudoAnimState.Recovery)
    (hanim : getTurnInPlaceAnimation tad.animSet s.pseudoNodeData true = some a)
    (hrate : a.rateScale = 1)
    (hge : a.playLength ≤ s.pseudoNodeData.animStateTime + dt) :
    (updatePseudoAnimState true true dt tad out s).pseudoAnimState
        = PseudoAnimState.Idle := by
  have htime : getUpdatedTurnInPlaceAnimTime (some a) s.pseudoNodeData.animStateTime dt 1
      = min (s.pseudoNodeData.animStateTime + dt) a.playLength := by
    simp only [getUpdatedTurnInPlaceAnimTime, hrate, mul_one]
  have hcond : min (s.pseudoNodeData.animStateTime + dt) a.playLength ≥ a.playLength :=
    le_min hge le_rfl
  simp only [updatePseudoAnimState, Bool.and_self, if_true, hs, hanim, htime, hcond,
    if_pos]

/-- C8: the pseudo animation state machine of
UTurnInPlace::UpdatePseudoAnimState: (1) from Idle with bWantsToTurn, one
update call reaches TurnInPlace; (2) from Recovery at elapsed time 0 with a
resolved recovery animation of play length L at rate scale 1 and a fixed
positive deltaTime, the machine stays in Recovery for every update call
before the ceil(L / deltaTime)-th and is back in Idle exactly at the
ceil(L / deltaTime)-th call; (3) from Recovery with no resolved recovery
animation, the next update call returns to Idle. -/
theorem C8_pseudo_liveness :
    (∀ (dt : ℚ) (tad : AnimGraphData) (out : AnimGraphOutput) (ps : PseudoState),
       ps.pseudoAnimState = PseudoAnimState.Idle → out.bWantsToTurn = true →
       (updatePseudoAnimState true true dt tad out ps).pseudoAnimState
         = PseudoAnimState.TurnInPlace)
    ∧ (∀ (dt : ℚ) (tad : AnimGraphData) (out : AnimGraphOutput) (ps : PseudoState)
         (a : AnimSeq),
       ps.pseudoAnimState = PseudoAnimState.Recovery →
       ps.pseudoNodeData.animStateTime = 0 →
       getTurnInPlaceAnimation tad.animSet ps.pseudoNodeData true = some a →
       a.rateScale = 1 → 0 < a.playLength → 0 < dt →
       (∀ k : ℕ, k < (⌈a.playLength / dt⌉).toNat →
          ((updatePseudoAnimState true true dt tad out)^[k] ps).pseudoAnimState
            = PseudoAnimState.Recovery)
       ∧ ((updatePseudoAnimState true true dt tad
             out)^[(⌈a.playLength / dt⌉).toNat] ps).pseudoAnimState
            = PseudoAnimState.Idle)
    ∧ (∀ (dt : ℚ) (tad : AnimGraphData) (out : AnimGraphOutput) (ps : PseudoState),
       ps.pseudoAnimState = PseudoAnimState.Recovery →
       getTurnInPlaceAnimation tad.animSet ps.pseudoNodeData true = none →
       (updatePseudoAnimState true true dt tad out ps).pseudoAnimState
         = PseudoAnimState.Idle) := by
  refine ⟨?_, ?_, ?_⟩
  · intro dt tad out ps hidle hwants
    simp [updatePseudoAnimState, hidle, hwants]
  · intro dt tad out ps a hrec ht0 hanim hrate hL hdt
    have haux : ∀ k : ℕ, (k : ℚ) * dt < a.playLength →
        ((updatePseudoAnimState true true dt tad out)^[k] ps).pseudoAnimState
          = PseudoAnimState.Recovery ∧
        ((updatePseudoAnimState true true dt tad out)^[k] ps).pseudoNodeData
          = { ps.pseudoNodeData with animStateTime := (k : ℚ) * dt } := by
      intro k
      induction k with
      | zero =>
        intro _
        rw [Function.iterate_zero_apply]
        refine ⟨hrec, ?_⟩
        have h00 : ((0:ℕ):ℚ) * dt = ps.pseudoNodeData.animStateTime := by
          rw [ht0]
          push_cast
          ring
        rw [h00]
      | succ n ih =>
        intro hk1
        have hn : ((n:ℕ):ℚ) * dt < a.playLength := by
          push_cast at hk1 ⊢
          nlinarith
        obtain ⟨hs, hnd⟩ := ih hn
        rw [Function.iterate_succ_apply']
        have hanim2 : getTurnInPlaceAnimation tad.animSet
            ((updatePseudoAnimState true true dt tad out)^[n] ps).pseudoNodeData true
            = some a := by
          rw [hnd, getTurnInPlaceAnimation_time_irrel]
          exact hanim
        have hlt2 : ((updatePseudoAnimState true true dt tad
            out)^[n] ps).pseudoNodeData.animStateTime + dt < a.playLength := by
          rw [hnd]
          push_cast at hk1 ⊢
          nlinarith
        obtain ⟨h1, h2⟩ := recovery_step_aux dt tad out _ a hs hanim2 hrate hlt2
        refine ⟨h1, ?_⟩
        rw [h2, hnd]
        have : ((n:ℕ):ℚ) * dt + dt = ((n + 1 : ℕ):ℚ) * dt := by
          push_cast
          ring
        rw [this]
    have hceilpos : 0 < ⌈a.playLength / dt⌉ := Int.ceil_pos.mpr (div_pos hL hdt)
    constructor
    · intro k hk
      have hk2 : ((k:ℕ):ℚ) * dt < a.playLength := by
        have hklt : ((k:ℕ):ℤ) < ⌈a.playLength / dt⌉ := Int.lt_toNat.mp hk
        have : ((k:ℕ):ℚ) < a.playLength / dt := by
          exact_mod_cast Int.lt_ceil.mp hklt
        rw [lt_div_iff₀ hdt] at this
        exact this
      exact (haux k hk2).1
    · obtain ⟨n, hn⟩ : ∃ n, (⌈a.playLength / dt⌉).toNat = n + 1 :=
        ⟨(⌈a.playLength / dt⌉).toNat - 1, by omega⟩
      rw [hn, Function.iterate_succ_apply']
      have hnlt : ((n:ℕ):ℚ) * dt < a.playLength := by
        have hklt : ((n:ℕ):ℤ) < ⌈a.playLength / dt⌉ := by
          rw [← Int.lt_toNat, hn]
          omega
        have : ((n:ℕ):ℚ) < a.playLength / dt := by
          exact_mod_cast Int.lt_ceil.mp hklt
        rw [lt_div_iff₀ hdt] at this
        exact this
      obtain ⟨hs, hnd⟩ := haux n hnlt
      have hanim2 : getTurnInPlaceAnimation tad.animSet
          ((updatePseudoAnimState true true dt tad out)^[n] ps).pseudoNodeData true
          = some a := by
        rw [hnd, getTurnInPlaceAnimation_time_irrel]
        exact hanim
      have hge : a.playLength ≤ ((updatePseudoAnimState true true dt tad
          out)^[n] ps).pseudoNodeData.animStateTime + dt := by
        rw [hnd]
        have hceil : a.playLength / dt ≤ ((n:ℕ):ℚ) + 1 := by
          have h1 : a.playLength / dt ≤ (⌈a.playLength / dt⌉ : ℚ) := Int.le_ceil _
          have h2 : (⌈a.playLength / dt⌉ : ℚ) = ((n:ℕ):ℚ) + 1 := by
            have : (⌈a.playLength / dt⌉ : ℤ) = (n : ℤ) + 1 := by
              omega
            exact_mod_cast this
          rw [h2] at h1
          exact h1
        rw [div_le_iff₀ hdt] at hceil
        calc a.playLength ≤ (((n:ℕ):ℚ) + 1) * dt := hceil
          _ = ((n:ℕ):ℚ) * dt + dt := by ring
      exact recovery_final_aux dt tad out _ a hs hanim2 hrate hge
  · intro dt tad out ps hrec hnone
    simp [updatePseudoAnimState, hrec, hnone]

/-- Witness for C8: one-call Idle to TurnInPlace transition; a one-second
recovery animation at deltaTime 3/10 returning to Idle at call
ceil(1 / (3/10)) = 4 and not before (checked at call 2); and immediate
Recovery to Idle when no recovery animation resolves. -/
theorem C8_witness :
    (updatePseudoAnimState true true (3/10) tad8 out8 psIdle8).pseudoAnimState
      = PseudoAnimState.TurnInPlace
    ∧ ((updatePseudoAnimState true true (3/10) tad8
         out8)^[(⌈anim1.playLength / (3/10 : ℚ)⌉).toNat] psRec8).pseudoAnimState
      = PseudoAnimState.Idle
    ∧ ((updatePseudoAnimState true true (3/10) tad8 out8)^[2] psRec8).pseudoAnimState
      = PseudoAnimState.Recovery
    ∧ (updatePseudoAnimState true true (3/10) tad8 out8 psRecNone).pseudoAnimState
      = PseudoAnimState.Idle := by
  have hmain := C8_pseudo_liveness.2.1 (3/10) tad8 out8 psRec8 anim1 rfl rfl rfl rfl
    (by norm_num [anim1]) (by norm_num)
  have hceil : (⌈anim1.playLength / (3/10 : ℚ)⌉).toNat = 4 := by
    have h1 : anim1.playLength / (3/10 : ℚ) = 10 / 3 := by
      norm_num [anim1]
    have h2 : ⌈(10 / 3 : ℚ)⌉ = 4 := by
      rw [Int.ceil_eq_iff]
      norm_num
    rw [h1, h2]
    rfl
  refine ⟨C8_pseudo_liveness.1 (3/10) tad8 out8 psIdle8 rfl rfl, hmain.2, ?_, ?_⟩
  · exact hmain.1 2 (by rw [hceil]; norm_num)
  · exact C8_pseudo_liveness.2.2 (3/10) tad8 out8 psRecNone rfl rfl

theorem quatEquals_self (a : Quat) : quatEquals a a TURN_ROTATOR_TOLERANCE = true := by
  simp only [quatEquals, sub_self, abs_zero, Bool.or_eq_true, Bool.and_eq_true,
    decide_eq_true_eq]
  left
  norm_num [TURN_ROTATOR_TOLERANCE]

/-- C9 counterexample: at the angle exactly -180 (inside the claimed range
[-180, 180)), the compress-decompress round trip returns +180, so the plain
difference |decompress(compress(-180)) - (-180)| is 360, not under any
small epsilon. -/
theorem C9_counterexample :
    decompressTurnOffset (compressAxisToShort (-180)) = 180
    ∧ ¬ |decompressTurnOffset (compressAxisToShort (-180)) - (-180)| < 1 / 100 := by
  have h1 : compressAxisToShort (-180) = 32768 := by
    have hfl : roundToInt ((-180 : ℚ) * 65536 / 360) = -32768 := by
      rw [roundToInt, ratFloor_eq_floor]
      norm_num
    rw [compressAxisToShort, hfl]
    rfl
  have h2 : decompressTurnOffset 32768 = 180 := by
    rw [decompressTurnOffset, decompressAxisFromShort]
    norm_num
    simp only [normalizeAxis, clampAxis, ratFloor_eq_floor]
    norm_num
  rw [h1, h2]
  norm_num

/-- C9 (amended): for every angle x in [-180, 180), the compress-decompress
round trip is within 45/16384 (about 0.0027) of x as an angle, that is,
after normalizing the difference to (-180, 180] -- at and just above -180
the decompressed value is +180, the same facing as x but offset by a full
turn, which is why the plain difference bound of the original claim fails;
and the change-significance test hasTurnOffsetChanged returns false on two
identical angles, for every angle and every trigonometric evaluation. -/
theorem C9_roundtrip_amended :
    (∀ x : ℚ, -180 ≤ x → x < 180 →
       |normalizeAxis (decompressTurnOffset (compressAxisToShort x) - x)| ≤ 45 / 16384)
    ∧ (45 / 16384 : ℚ) < 1 / 100
    ∧ ∀ (trig : ℚ → ℚ × ℚ) (x : ℚ), hasTurnOffsetChanged trig x x = false := by
  refine ⟨?_, by norm_num, ?_⟩
  · intro x hxl hxu
    set u : ℚ := x * 65536 / 360 with hu
    set r : ℤ := roundToInt u with hrdef
    have hrle : (r : ℚ) ≤ u + 1 / 2 := by
      rw [hrdef, roundToInt, ratFloor_eq_floor]
      exact Int.floor_le _
    have hrgt : u + 1 / 2 < (r : ℚ) + 1 := by
      rw [hrdef, roundToInt, ratFloor_eq_floor]
      exact Int.lt_floor_add_one _
    have habs : |(r : ℚ) - u| ≤ 1 / 2 := abs_le.mpr ⟨by linarith, by linarith⟩
    set q : ℤ := r / 65536 with hqdef
    have hmod : ((r % 65536 : ℤ) : ℚ) = (r : ℚ) - 65536 * (q : ℚ) := by
      rw [hqdef]
      push_cast [Int.emod_def]
      ring
    have hcomp : compressAxisToShort x = r % 65536 := rfl
    set z : ℚ := (r : ℚ) * 360 / 65536 - x with hzdef
    have hxu2 : x = u * 360 / 65536 := by
      rw [hu]
      ring
    have hzb : |z| ≤ 45 / 16384 := by
      have hz2 : z = ((r : ℚ) - u) * (360 / 65536) := by
        rw [hzdef, hxu2]
        ring
      rw [hz2, abs_mul]
      have h360 : |(360 / 65536 : ℚ)| = 360 / 65536 := by
        rw [abs_of_pos]
        norm_num
      rw [h360]
      calc |(r : ℚ) - u| * (360 / 65536) ≤ (1 / 2) * (360 / 65536) := by
            apply mul_le_mul_of_nonneg_right habs
            norm_num
        _ = 45 / 16384 := by norm_num
    set d : ℚ := ((r % 65536 : ℤ) : ℚ) * 360 / 65536 with hddef
    have hdec : decompressTurnOffset (compressAxisToShort x) = normalizeAxis d := by
      rw [hcomp, decompressTurnOffset, decompressAxisFromShort, hddef]
    obtain ⟨k1, hk1⟩ := normalizeAxis_sub_int d
    have hsum : normalizeAxis d - x = z + 360 * ((k1 - q : ℤ) : ℚ) := by
      rw [hk1, hddef, hmod, hzdef]
      push_cast
      ring
    have hz1 : -(45 / 16384 : ℚ) ≤ z := (abs_le.mp hzb).1
    have hz2 : z ≤ (45 / 16384 : ℚ) := (abs_le.mp hzb).2
    clear_value d z q r u
    have hnorm : normalizeAxis (normalizeAxis d - x) = z := by
      apply normalizeAxis_eq_of_congr (k1 - q) hsum
      · linarith
      · linarith
    rw [hdec, hnorm]
    exact hzb
  · intro trig x
    simp only [hasTurnOffsetChanged, quatEquals_self, Bool.not_true]

/-- Witness for C9 (amended) at the angle 90. -/
theorem C9_witness :
    |normalizeAxis (decompressTurnOffset (compressAxisToShort 90) - 90)|
      ≤ (45 / 16384 : ℚ) :=
  C9_roundtrip_amended.1 90 (by norm_num) (by norm_num)

/-- Witness for C10: both select modes on the concrete parameter sets, the
empty-list fallback, and an out-of-range lookup returning none. -/
theorem C10_witness :
    (determineStepSize params7 135).1 < 3
    ∧ (determineStepSize emptyStepParams 135).1 = 0
    ∧ getTurnInPlaceAnimation animSet8 ndBig true = none :=
  ⟨C10_step_size_bounds.1 params7 135 (by decide),
   C10_step_size_bounds.2.1 emptyStepParams 135 rfl,
   C10_step_size_bounds.2.2 animSet8 ndBig true (by decide)⟩

end TIP
